import Mathlib

/-!
# engpass: a verification development for `main.go`

The program is one Go file: two HTTP handlers (`indexHandler`, `storeHandler`),
two URL builders (`projectStoreURL`, `whatsLeftStoreURL`), the PDF composer
`generatePDF` and the QR renderer `generateQRCode`.

The embedding is shallow.  Go strings are Lean strings (request paths that are
not valid UTF-8 are outside the model; the route pattern rejects them anyway,
since an invalid byte decodes to U+FFFD, which no part of the pattern accepts).
The response writer of `net/http` is an explicit record that is threaded through
the handlers.  What the program obtains from its collaborators (the template
engine, the PDF serialiser, the QR/PNG encoder) is read from a `World` record,
so that every theorem quantifies over all their possible outcomes.
-/

namespace Engpass

/-! ## Constants of `main.go` -/

def baseStorePattern : String := "/store/"

def projectDomain : String := "engpass.appspot.com"

def placeIDFormat : String := "[A-Za-z0-9-_]+"

def whatsLeftDomain : String := "whatsleft.wirvsvirus.net"

/-- QR error-correction levels of `boombuler/barcode/qr`. -/
inductive ErrorCorrectionLevel where
  | L | M | Q | H
  deriving DecidableEq, Repr

/-- QR encoding modes of `boombuler/barcode/qr`. -/
inductive Encoding where
  | Auto | Numeric | AlphaNumeric | Unicode
  deriving DecidableEq, Repr

def qrErrorCorrectionLevel : ErrorCorrectionLevel := ErrorCorrectionLevel.H

/-! ## The fragment of Go's `regexp` used by `storeHandler`

`regexp.MustCompile` compiles with Perl syntax: leftmost-first (backtracking
priority) matching, `^` and `$` are beginning and end of the text (no `m`
flag), `+` and `?` are greedy. -/

/-- Abstract syntax of the regular expressions that occur in `main.go`. -/
inductive Regex where
  | eps
  | bot
  | eot
  | lit (c : Char)
  | cls (ranges : List (Char × Char))
  | cat (a b : Regex)
  | alt (a b : Regex)
  | plus (a : Regex)
  | quest (a : Regex)
  | cap (i : Nat) (a : Regex)
  deriving Repr

/-- Regex for a literal string. -/
def Regex.str : List Char → Regex
  | [] => Regex.eps
  | c :: cs => Regex.cat (Regex.lit c) (Regex.str cs)

/-- Number of capture groups (`Regexp.NumSubexp`). -/
def Regex.numSubexp : Regex → Nat
  | Regex.cat a b => a.numSubexp + b.numSubexp
  | Regex.alt a b => a.numSubexp + b.numSubexp
  | Regex.plus a => a.numSubexp
  | Regex.quest a => a.numSubexp
  | Regex.cap _ a => a.numSubexp + 1
  | _ => 0

/-- A character class given by inclusive ranges. -/
def inRanges (ranges : List (Char × Char)) (c : Char) : Bool :=
  ranges.any (fun r => decide (r.1.toNat ≤ c.toNat) && decide (c.toNat ≤ r.2.toNat))

/-- State of the matcher: position in the text, remaining text, capture groups. -/
structure MState where
  pos : Nat
  rest : List Char
  caps : List (List Char)
  deriving DecidableEq, Repr

/-- Greedy iteration: at most `fuel` rounds of `step`, longer iterations first. -/
def plusLoop (step : MState → List MState) : Nat → MState → List MState
  | 0, _ => []
  | n + 1, st => (step st).flatMap (fun st1 => plusLoop step n st1 ++ [st1])

/-- All ways of matching a regex at a state, in backtracking priority order.
The iteration `plus` is given one round per remaining character plus one, which
is all it can use when every round consumes a character. -/
def run : Regex → MState → List MState
  | Regex.eps => fun st => [st]
  | Regex.bot => fun st => if st.pos = 0 then [st] else []
  | Regex.eot => fun st => if st.rest = [] then [st] else []
  | Regex.lit c => fun st =>
      match st.rest with
      | x :: xs => if x = c then [⟨st.pos + 1, xs, st.caps⟩] else []
      | [] => []
  | Regex.cls ranges => fun st =>
      match st.rest with
      | x :: xs => if inRanges ranges x then [⟨st.pos + 1, xs, st.caps⟩] else []
      | [] => []
  | Regex.cat a b => fun st => (run a st).flatMap (run b)
  | Regex.alt a b => fun st => run a st ++ run b st
  | Regex.plus a => fun st => plusLoop (run a) (st.rest.length + 1) st
  | Regex.quest a => fun st => run a st ++ [st]
  | Regex.cap i a => fun st =>
      (run a st).map (fun st1 =>
        ⟨st1.pos, st1.rest, st1.caps.set i (st.rest.take (st1.pos - st.pos))⟩)

/-- The first match that starts at a position, with its groups; group 0 is
the whole match. -/
def matchAt (re : Regex) (pos : Nat) (rest : List Char) : Option (List String) :=
  match run re ⟨pos, rest, List.replicate (re.numSubexp + 1) []⟩ with
  | st :: _ => some ((st.caps.set 0 (rest.take (st.pos - pos))).map String.mk)
  | [] => none

/-- Leftmost match: try each start position in turn, take the first result. -/
def findFrom (re : Regex) : Nat → List Char → Option (List String)
  | pos, [] => matchAt re pos []
  | pos, x :: xs =>
    match matchAt re pos (x :: xs) with
    | some m => some m
    | none => findFrom re (pos + 1) xs

/-- Go: `(*Regexp).FindStringSubmatch`: the match and its groups, an unmatched
group being the empty string; `none` is Go's `nil`. -/
def FindStringSubmatch (re : Regex) (s : String) : Option (List String) :=
  findFrom re 0 s.data

/-- The class `[A-Za-z0-9-_]` of `placeIDFormat`: three ranges, then the
literal characters `-` and `_` (a `-` that follows a complete range is a
literal in Go's Perl syntax). -/
def placeIDClass : List (Char × Char) :=
  [('A', 'Z'), ('a', 'z'), ('0', '9'), ('-', '-'), ('_', '_')]

/-- The parse of `placeIDFormat`. -/
def placeIDRegex : Regex := Regex.plus (Regex.cls placeIDClass)

/-- The parse of
`"^" + baseStorePattern + "(" + placeIDFormat + ")(/(pdf|png|qr))?$"`. -/
def validPath : Regex :=
  Regex.cat Regex.bot
    (Regex.cat (Regex.str baseStorePattern.data)
      (Regex.cat (Regex.cap 1 placeIDRegex)
        (Regex.cat
          (Regex.quest
            (Regex.cap 2
              (Regex.cat (Regex.lit '/')
                (Regex.cap 3
                  (Regex.alt (Regex.str "pdf".data)
                    (Regex.alt (Regex.str "png".data) (Regex.str "qr".data)))))))
          Regex.eot)))

/-! ## The response writer of `net/http`

The handler edits the header map `w.Header()`.  The first `WriteHeader` fixes
the status code and takes a snapshot of the header map; later `WriteHeader`
calls are ignored ("superfluous WriteHeader call") and later edits of the map
no longer reach the client.  `Write` first performs `WriteHeader(200)` when no
header was written yet.  The field `sent` is that snapshot: the headers the
handler chose.  What the server adds on its own (`Date`, `Content-Length`, a
sniffed `Content-Type` when the handler set none) is not modelled. -/

abbrev Header := List (String × String)

/-- Go: `Header.Set`. -/
def Header.Set (h : Header) (key value : String) : Header :=
  (key, value) :: h.filter (fun kv => kv.1 != key)

/-- Go: `Header.Del`. -/
def Header.Del (h : Header) (key : String) : Header :=
  h.filter (fun kv => kv.1 != key)

/-- Go: `Header.Get`: the value of the key, `""` when it is absent. -/
def Header.Get (h : Header) (key : String) : String :=
  (h.lookup key).getD ""

structure ResponseWriter where
  header : Header
  wroteHeader : Bool
  status : Nat
  sent : Header
  body : String
  deriving DecidableEq, Repr

/-- The response writer a handler receives. -/
def ResponseWriter.fresh : ResponseWriter :=
  ⟨[], false, 0, [], ""⟩

/-- Go: `w.Header().Set(key, value)`. -/
def ResponseWriter.SetHeader (w : ResponseWriter) (key value : String) : ResponseWriter :=
  { w with header := w.header.Set key value }

/-- Go: `w.Header().Del(key)`. -/
def ResponseWriter.DelHeader (w : ResponseWriter) (key : String) : ResponseWriter :=
  { w with header := w.header.Del key }

/-- Go: `w.WriteHeader(code)`. -/
def ResponseWriter.WriteHeader (w : ResponseWriter) (code : Nat) : ResponseWriter :=
  if w.wroteHeader then w
  else { w with wroteHeader := true, status := code, sent := w.header }

/-- Go: `w.Write(b)`. -/
def ResponseWriter.Write (w : ResponseWriter) (b : String) : ResponseWriter :=
  let w1 := if w.wroteHeader then w else w.WriteHeader 200
  { w1 with body := w1.body ++ b }

/-- Output of a collaborator that writes to an `io.Writer`: nothing written
means that `Write` was not called. -/
def ResponseWriter.WriteOut (w : ResponseWriter) (b : String) : ResponseWriter :=
  if b = "" then w else w.Write b

/-- What the server does when the handler returns without a header written. -/
def ResponseWriter.finish (w : ResponseWriter) : ResponseWriter :=
  if w.wroteHeader then w else w.WriteHeader 200

def StatusOK : Nat := 200
def StatusNotFound : Nat := 404
def StatusInternalServerError : Nat := 500

/-- Go: `http.Error`. -/
def Error (w : ResponseWriter) (error : String) (code : Nat) : ResponseWriter :=
  let w := w.DelHeader "Content-Length"
  let w := w.SetHeader "Content-Type" "text/plain; charset=utf-8"
  let w := w.SetHeader "X-Content-Type-Options" "nosniff"
  let w := w.WriteHeader code
  w.Write (error ++ "\n")

/-- Go: `http.NotFound`. -/
def NotFound (w : ResponseWriter) : ResponseWriter :=
  Error w "404 page not found" StatusNotFound

/-! ## The PDF document handed to `gofpdf`

Lengths are `float64` millimetres in the source.  Every constant of
`generatePDF` is an integer and the only operations are two subtractions and
one division by two of integers below `2^53`, which `float64` performs exactly,
so the lengths are modelled as rationals. -/

inductive PdfOp where
  | AddPage
  | Barcode (content : String) (level : ErrorCorrectionLevel) (mode : Encoding)
      (x y w h : ℚ) (flow : Bool)
  | SetX (x : ℚ)
  | ImageOptions (file : String) (x y w h : ℚ) (flow : Bool)
      (imageType : String) (readDpi : Bool) (link : Nat) (linkStr : String)
  deriving DecidableEq

structure Document where
  orientation : String
  unit : String
  size : String
  fontDir : String
  ops : List PdfOp
  deriving DecidableEq

/-- Modelled from the spec: the page size of the PDF library for the size name
"A4" in portrait orientation, in millimetres (210 mm wide, 297 mm high); the
library is not part of the repository. -/
def pageSizeA4 : ℚ × ℚ := (210, 297)

/-- Go: the `store` struct given to the HTML template. -/
structure store where
  GooglePlaceID : String
  WhatsLeftURL : String
  deriving DecidableEq, Repr

/-- A barcode of the barcode library: the content it encodes (`Content()`) and
its size in pixels (`Bounds()`). -/
structure Barcode where
  content : String
  width : Nat
  height : Nat
  deriving DecidableEq, Repr

/-- What the collaborators of the program answer.  Each answer of a writing
collaborator is the output it wrote and the error it returned, if any. -/
structure World where
  /-- The error of `template.ParseFiles` for a file, `none` when it parses. -/
  parseFiles : String → Option String
  /-- The output and error of `(*Template).Execute` of a parsed file on data. -/
  execute : String → store → String × Option String
  /-- The output and error of `(*Fpdf).Output` for a document. -/
  pdfOutput : Document → String × Option String
  /-- The barcode `qr.Encode` returns for a content, level and mode; `none`
  when it returns an error, and with it a nil barcode (the content does not fit
  a QR code at that level). -/
  qrEncode : String → ErrorCorrectionLevel → Encoding → Option Barcode
  /-- The barcode `barcode.Scale` returns for a barcode, width and height;
  `none` when it returns an error, and with it a nil barcode. -/
  scale : Barcode → Nat → Nat → Option Barcode
  /-- The output and error of `png.Encode` on a barcode. -/
  pngEncode : Barcode → String × Option String

/-- What is recorded of a run besides the response: the lines given to
`log.Printf`, and the calls of `qr.Encode`, recorded by `generateQRCode` with
the arguments it passes. -/
inductive Event where
  | log (line : String)
  | qrEncode (content : String) (level : ErrorCorrectionLevel) (mode : Encoding)
  deriving DecidableEq, Repr

/-- The state a handler runs in.  `panicked` is set when the handler panics:
the server recovers, logs the panic and closes the connection, and the client
receives no response. -/
structure Exec where
  w : ResponseWriter
  trace : List Event
  panicked : Bool
  deriving DecidableEq, Repr

def Exec.fresh : Exec := ⟨ResponseWriter.fresh, [], false⟩

def Exec.emit (e : Exec) (ev : Event) : Exec :=
  { e with trace := e.trace ++ [ev] }

/-! ## `main.go` -/

/-- Go: `projectStoreURL`. -/
def projectStoreURL (googlePlaceID : String) : String :=
  "https://" ++ projectDomain ++ baseStorePattern ++ googlePlaceID

/-- Go: `whatsLeftStoreURL`. -/
def whatsLeftStoreURL (googlePlaceID : String) : String :=
  "https://" ++ whatsLeftDomain ++ "/store/" ++ googlePlaceID

/-- The document `generatePDF` builds before it calls `pdf.Output`. -/
def pdfDocument (targetURL : String) : Document :=
  let qrSize : ℚ := 120
  let qrBorder : ℚ := (210 - qrSize) / 2
  { orientation := "P", unit := "mm", size := "A4", fontDir := "",
    ops :=
      [ PdfOp.AddPage,
        PdfOp.Barcode targetURL qrErrorCorrectionLevel Encoding.Auto
          qrBorder (279 - 20 - qrSize) qrSize qrSize false,
        PdfOp.SetX 60,
        PdfOp.ImageOptions "assets/images/teaser-whatsleft.png" 20 20 170 0 false
          "PNG" true 0 "",
        PdfOp.ImageOptions "assets/images/logo-projekt.png" 120 267 70 0 false
          "PNG" true 0 "" ] }

/-- Go: `generatePDF`, writing to a `bytes.Buffer`: the buffer afterwards and
the returned error. -/
def generatePDF (W : World) (buf : String) (targetURL : String) : String × Option String :=
  let out := W.pdfOutput (pdfDocument targetURL)
  (buf ++ out.1, out.2)

/-- Go: `generateQRCode`, writing to the response: the state afterwards and the
returned error.  The source discards the errors of `qr.Encode` and
`barcode.Scale`; the nil barcode that comes with such an error makes the next
call panic (`barcode.Scale` and `png.Encode` call a method of it), before
anything is written. -/
def generateQRCode (W : World) (e : Exec) (targetURL : String) : Exec × Option String :=
  let e := e.emit (Event.qrEncode targetURL qrErrorCorrectionLevel Encoding.Auto)
  match W.qrEncode targetURL qrErrorCorrectionLevel Encoding.Auto with
  | none => ({ e with panicked := true }, none)
  | some qrCode =>
    match W.scale qrCode 1024 1024 with
    | none => ({ e with panicked := true }, none)
    | some scaled =>
      let out := W.pngEncode scaled
      ({ e with w := e.w.WriteOut out.1 }, out.2)

/-- Go: `path.Join` of two clean, non-empty elements. -/
def pathJoin (a b : String) : String := a ++ "/" ++ b

/-- Go: `strings.ToLower`, on ASCII text (the only text that reaches it: the
title is an ASCII literal followed by a matched identifier). -/
def ToLower (s : String) : String := String.mk (s.data.map Char.toLower)

/-- Go: `strings.ReplaceAll` for one-character old and new strings. -/
def ReplaceAll (s : String) (old new : Char) : String :=
  String.mk (s.data.map (fun c => if c = old then new else c))

/-- The case labels of the `switch m[3]` in `storeHandler`. -/
inductive ModeCase where
  | redirect
  | pdf
  | qr
  | default
  deriving DecidableEq, Repr

/-- Go: the case selection of `switch m[3]`: `case ""`, `case "pdf"`,
`case "qr"`, `default`. -/
def modeCase (mode : String) : ModeCase :=
  if mode = "" then ModeCase.redirect
  else if mode = "pdf" then ModeCase.pdf
  else if mode = "qr" then ModeCase.qr
  else ModeCase.default

/-- Go: `storeHandler`, on the request's `r.URL.Path`. -/
def storeHandler (W : World) (e : Exec) (urlPath : String) : Exec :=
  match FindStringSubmatch validPath urlPath with
  | none => { e with w := NotFound e.w }
  | some m =>
    let googlePlaceID := m.getD 1 ""
    match modeCase (m.getD 3 "") with
    | ModeCase.redirect =>
      let targetURL := whatsLeftStoreURL googlePlaceID
      let e := e.emit (Event.log ("weiterleiten zu " ++ targetURL ++ " ..."))
      let w := e.w.SetHeader "Location" targetURL
      let w := w.WriteHeader 302
      let fp := pathJoin "assets/templates" "store-whatsleft.html"
      match W.parseFiles fp with
      | some err => { e with w := Error w err StatusInternalServerError }
      | none =>
        let out := W.execute fp ⟨googlePlaceID, targetURL⟩
        let w := w.WriteOut out.1
        match out.2 with
        | some err => { e with w := Error w err StatusInternalServerError }
        | none => { e with w := w }
    | ModeCase.pdf =>
      let targetURL := projectStoreURL googlePlaceID
      let title := "WhatsLeft - " ++ googlePlaceID
      let fileName := ReplaceAll (ToLower title) ' ' '_' ++ ".pdf"
      let e := e.emit (Event.log
        ("generiere PDF " ++ fileName ++ " mit QR-Code der auf " ++ targetURL ++ " zeigt"))
      let res := generatePDF W "" targetURL
      match res.2 with
      | some err => { e with w := Error e.w err StatusInternalServerError }
      | none =>
        let w := e.w.SetHeader "Content-Type" "application/pdf"
        let w := w.SetHeader "Content-Disposition" ("inline; filename=\"" ++ fileName ++ "\"")
        { e with w := w.Write res.1 }
    | ModeCase.qr =>
      let targetURL := projectStoreURL googlePlaceID
      let e := e.emit (Event.log ("generiere QR-Code der auf " ++ targetURL ++ " zeigt"))
      let res := generateQRCode W e targetURL
      if res.1.panicked then res.1
      else
        match res.2 with
        | some err => { res.1 with w := Error res.1.w err StatusInternalServerError }
        | none => res.1
    | ModeCase.default => { e with w := NotFound e.w }

/-- Go: `indexHandler`, on the request's `r.URL.Path`. -/
def indexHandler (e : Exec) (urlPath : String) : Exec :=
  let e := e.emit (Event.log ("handle URL path " ++ urlPath ++ " ..."))
  if urlPath ≠ "/" then { e with w := NotFound e.w }
  else { e with w := e.w.Write "Hello world!" }

/-- The response the client receives from `storeHandler` when the handler
returns (when it panics, which only `generateQRCode` can, there is none). -/
def serveStore (W : World) (urlPath : String) : ResponseWriter :=
  (storeHandler W Exec.fresh urlPath).w.finish

/-- The response the client receives from `indexHandler`. -/
def serveIndex (urlPath : String) : ResponseWriter :=
  (indexHandler Exec.fresh urlPath).w.finish

/-- The characters of a place identifier: `A-Z`, `a-z`, `0-9`, `-` and `_`. -/
def isPlaceIDChar (c : Char) : Bool :=
  c.isAlphanum || c == '-' || c == '_'

/-- A place identifier: a non-empty string of place-identifier characters. -/
def validID (id : String) : Prop :=
  id.data ≠ [] ∧ ∀ c ∈ id.data, isPlaceIDChar c = true

instance (id : String) : Decidable (validID id) := by
  unfold validID; infer_instance

/-! ## Definitions used in the statements and proofs -/

/-- The three mode names of the route pattern. -/
def modeNames : List (List Char) := ["pdf".data, "png".data, "qr".data]

/-- The regex of the mode alternation `pdf|png|qr`. -/
def modeRegex : Regex :=
  Regex.alt (Regex.str "pdf".data) (Regex.alt (Regex.str "png".data) (Regex.str "qr".data))

/-- The regex of the optional tail `(/(pdf|png|qr))?$`. -/
def tailRegex : Regex :=
  Regex.cat (Regex.quest (Regex.cap 2 (Regex.cat (Regex.lit '/') (Regex.cap 3 modeRegex))))
    Regex.eot

/-- The capture groups of a match of the route pattern on identifier `a` and
tail `t` (empty, or a slash and a mode name). -/
def routeCaps (cp : List (List Char)) (a t : List Char) : List (List Char) :=
  match t with
  | [] => cp.set 1 a
  | _ :: m => ((cp.set 1 a).set 3 m).set 2 t

/-- The tails the route pattern accepts after the identifier. -/
def isRouteTail (t : List Char) : Prop :=
  t = [] ∨ ∃ m, m ∈ modeNames ∧ t = '/' :: m

/-- The result of `FindStringSubmatch` on a path made of the base pattern, an
identifier `a` and a tail `t`. -/
def routeMatch (a t : List Char) : List String :=
  [String.mk (baseStorePattern.data ++ (a ++ t)), String.mk a, String.mk t, String.mk t.tail]

/-- The writer of the redirect branch after `w.WriteHeader(302)`. -/
def redirectWriter (id : String) : ResponseWriter :=
  (ResponseWriter.fresh.SetHeader "Location" (whatsLeftStoreURL id)).WriteHeader 302

/-- The file name `storeHandler` computes for an identifier. -/
def pdfFileName (googlePlaceID : String) : String :=
  ReplaceAll (ToLower ("WhatsLeft - " ++ googlePlaceID)) ' ' '_' ++ ".pdf"

/-- The three forms of request path that `storeHandler` serves: the base
pattern and a place identifier, optionally followed by `/pdf` or `/qr`. -/
def isRouteForm (p : String) : Prop :=
  ∃ id, validID id ∧
    (p = "/store/" ++ id ∨ p = "/store/" ++ id ++ "/pdf" ∨ p = "/store/" ++ id ++ "/qr")

/-- Whether the path matches the route pattern with a mode that a case of the
switch handles. -/
def routesToMode (p : String) : Bool :=
  match FindStringSubmatch validPath p with
  | none => false
  | some m => decide (modeCase (m.getD 3 "") ≠ ModeCase.default)

/-- A world in which every collaborator succeeds. -/
def sampleWorld : World where
  parseFiles := fun _ => none
  execute := fun _ d => ("<p>" ++ d.GooglePlaceID ++ " " ++ d.WhatsLeftURL ++ "</p>", none)
  pdfOutput := fun _ => ("%PDF-1.3", none)
  qrEncode := fun content _ _ => some ⟨content, 33, 33⟩
  scale := fun b w h => some ⟨b.content, w, h⟩
  pngEncode := fun _ => ("PNG", none)

/-- A world in which the template file and the image assets are missing and
the QR encoder rejects its content. -/
def failingWorld : World where
  parseFiles := fun fp => some ("open " ++ fp ++ ": no such file or directory")
  execute := fun _ _ => ("", none)
  pdfOutput := fun _ =>
    ("%PDF-1.3 partial", some "open assets/images/teaser-whatsleft.png: no such file or directory")
  qrEncode := fun _ _ _ => none
  scale := fun _ _ _ => none
  pngEncode := fun _ => ("", some "short write")

/-- The contents of the barcodes placed in a document. -/
def barcodeContents (doc : Document) : List String :=
  doc.ops.filterMap (fun op =>
    match op with
    | PdfOp.Barcode content _ _ _ _ _ _ _ => some content
    | _ => none)

/-- A world whose PDF serialiser and PNG encoder answer with the barcode
content they are given. -/
def echoWorld : World where
  parseFiles := fun _ => none
  execute := fun _ d => (d.WhatsLeftURL, none)
  pdfOutput := fun doc => (String.join (barcodeContents doc), none)
  qrEncode := fun content _ _ => some ⟨content, 33, 33⟩
  scale := fun b w h => some ⟨b.content, w, h⟩
  pngEncode := fun b => (b.content, none)

/-- The response writer the qr case of `storeHandler` leaves when
`generateQRCode` is handed a URL. -/
def qrWriter (W : World) (url : String) : ResponseWriter :=
  match (generateQRCode W Exec.fresh url).2 with
  | some err => Error (generateQRCode W Exec.fresh url).1.w err StatusInternalServerError
  | none => (generateQRCode W Exec.fresh url).1.w

/-- The response writer the pdf case of `storeHandler` leaves for an
identifier when `generatePDF` is handed a URL. -/
def pdfWriter (W : World) (id url : String) : ResponseWriter :=
  match (generatePDF W "" url).2 with
  | some err => Error ResponseWriter.fresh err StatusInternalServerError
  | none =>
    ((ResponseWriter.fresh.SetHeader "Content-Type" "application/pdf").SetHeader
      "Content-Disposition" ("inline; filename=\"" ++ pdfFileName id ++ "\"")).Write
        (generatePDF W "" url).1

/-- The rectangles `(x, y, w, h)` of the barcodes placed in a document. -/
def barcodeRects (doc : Document) : List (ℚ × ℚ × ℚ × ℚ) :=
  doc.ops.filterMap (fun op =>
    match op with
    | PdfOp.Barcode _ _ _ x y w h _ => some (x, y, w, h)
    | _ => none)

/-- Characters that need no escaping in a URL: ASCII letters and digits and
`-`, `_`, `.`, `:`, `/`. -/
def isURLSafeChar (c : Char) : Bool :=
  c.isAlphanum || c == '-' || c == '_' || c == '.' || c == ':' || c == '/'

/-- A URL-safe character that is printable ASCII and none of space, the two
quotes, `?`, `#`, `%`. -/
def isPlainURLChar (c : Char) : Bool :=
  isURLSafeChar c && c != ' ' && c != Char.ofNat 34 && c != Char.ofNat 39 && c != '?' &&
    c != '#' && c != '%' && decide (32 < c.toNat) && decide (c.toNat < 127)

/-! ## The matcher on the route pattern -/

theorem char_beq_iff (c d : Char) : (c == d) = decide (c.toNat = d.toNat) := by
  rw [Bool.eq_iff_iff]
  simp only [beq_iff_eq, decide_eq_true_eq]
  constructor
  · intro h; rw [h]
  · intro h
    apply Char.ext
    apply UInt32.ext
    exact h

theorem inRanges_placeIDClass (c : Char) :
    inRanges placeIDClass c = isPlaceIDChar c := by
  have hge : ∀ n : UInt32, (c.val ≥ n) = (n.toNat ≤ c.toNat) := fun n => rfl
  have hle : ∀ n : UInt32, (c.val ≤ n) = (c.toNat ≤ n.toNat) := fun n => rfl
  simp only [inRanges, placeIDClass, isPlaceIDChar, Char.isAlphanum, Char.isAlpha,
    Char.isUpper, Char.isLower, Char.isDigit, List.any_cons, List.any_nil, Bool.or_false,
    char_beq_iff, hge, hle]
  have e1 : 'A'.toNat = 65 := rfl
  have e2 : 'Z'.toNat = 90 := rfl
  have e3 : 'a'.toNat = 97 := rfl
  have e4 : 'z'.toNat = 122 := rfl
  have e5 : '0'.toNat = 48 := rfl
  have e6 : '9'.toNat = 57 := rfl
  have e7 : '-'.toNat = 45 := rfl
  have e8 : '_'.toNat = 95 := rfl
  have f1 : (65 : UInt32).toNat = 65 := rfl
  have f2 : (90 : UInt32).toNat = 90 := rfl
  have f3 : (97 : UInt32).toNat = 97 := rfl
  have f4 : (122 : UInt32).toNat = 122 := rfl
  have f5 : (48 : UInt32).toNat = 48 := rfl
  have f6 : (57 : UInt32).toNat = 57 := rfl
  simp only [e1, e2, e3, e4, e5, e6, e7, e8, f1, f2, f3, f4, f5, f6]
  rw [Bool.eq_iff_iff]
  simp only [Bool.or_eq_true, Bool.and_eq_true, decide_eq_true_eq]
  omega

theorem mem_run_str (l : List Char) (st st1 : MState) :
    st1 ∈ run (Regex.str l) st ↔
      ∃ r, st.rest = l ++ r ∧ st1 = ⟨st.pos + l.length, r, st.caps⟩ := by
  induction l generalizing st with
  | nil =>
    obtain ⟨p, r, c⟩ := st
    simp [Regex.str, run]
  | cons x xs ih =>
    obtain ⟨p, r, c⟩ := st
    cases r with
    | nil => simp [Regex.str, run]
    | cons y ys =>
      by_cases hy : y = x
      · subst hy
        simp [Regex.str, run, ih, Nat.add_assoc, Nat.add_comm 1]
      · have hxy : ¬ x = y := fun h => hy h.symm
        simp [Regex.str, run, hy, hxy]

theorem run_cls_nil (R : List (Char × Char)) (p : Nat) (cp : List (List Char)) :
    run (Regex.cls R) ⟨p, [], cp⟩ = [] := rfl

theorem run_cls_cons (R : List (Char × Char)) (p : Nat) (y : Char) (ys : List Char)
    (cp : List (List Char)) :
    run (Regex.cls R) ⟨p, y :: ys, cp⟩ =
      if inRanges R y = true then [⟨p + 1, ys, cp⟩] else [] := rfl

theorem mem_plusLoop_cls (R : List (Char × Char)) (n : Nat) (p : Nat) (r : List Char)
    (cp : List (List Char)) (st1 : MState) :
    st1 ∈ plusLoop (run (Regex.cls R)) n ⟨p, r, cp⟩ ↔
      ∃ a b, r = a ++ b ∧ a ≠ [] ∧ a.length ≤ n ∧ (∀ c ∈ a, inRanges R c = true) ∧
        st1 = ⟨p + a.length, b, cp⟩ := by
  induction n generalizing p r with
  | zero =>
    simp only [plusLoop, List.not_mem_nil, false_iff]
    rintro ⟨a, b, -, ha, hl, -⟩
    exact ha (List.length_eq_zero.mp (Nat.le_zero.mp hl))
  | succ n ih =>
    cases r with
    | nil =>
      simp only [plusLoop, run_cls_nil, List.flatMap_nil, List.not_mem_nil, false_iff]
      rintro ⟨a, b, hab, ha, -⟩
      have := List.append_eq_nil.mp hab.symm
      exact ha this.1
    | cons y ys =>
      by_cases hy : inRanges R y = true
      · simp only [plusLoop, run_cls_cons, hy, if_true, List.flatMap_cons, List.flatMap_nil,
          List.append_nil, List.mem_append, List.mem_singleton, ih]
        constructor
        · rintro (⟨a, b, hab, ha, hl, hc, rfl⟩ | rfl)
          · refine ⟨y :: a, b, by simp [hab], by simp, by simpa using hl, ?_, ?_⟩
            · intro c hc1
              rcases List.mem_cons.mp hc1 with h | h
              · rw [h]; exact hy
              · exact hc c h
            · simp [Nat.add_assoc, Nat.add_comm 1]
          · exact ⟨[y], ys, by simp, by simp, by simp, by simpa using hy, by simp⟩
        · rintro ⟨a, b, hab, ha, hl, hc, rfl⟩
          cases a with
          | nil => exact absurd rfl ha
          | cons z zs =>
            simp only [List.cons_append, List.cons.injEq] at hab
            obtain ⟨hyz, hys⟩ := hab
            by_cases hz : zs = []
            · subst hz
              right
              simp at hys
              simp [hys]
            · left
              refine ⟨zs, b, hys, hz, by simpa using hl,
                fun c h => hc c (List.mem_cons_of_mem _ h), ?_⟩
              simp [Nat.add_assoc, Nat.add_comm 1]
      · simp only [plusLoop, run_cls_cons, hy, Bool.false_eq_true, if_false, List.flatMap_nil,
          List.not_mem_nil, false_iff]
        rintro ⟨a, b, hab, ha, -, hc, -⟩
        cases a with
        | nil => exact ha rfl
        | cons z zs =>
          simp only [List.cons_append, List.cons.injEq] at hab
          exact hy (hab.1 ▸ hc z (List.mem_cons_self _ _))

theorem run_cat (a b : Regex) (st : MState) :
    run (Regex.cat a b) st = (run a st).flatMap (run b) := rfl

theorem run_alt (a b : Regex) (st : MState) :
    run (Regex.alt a b) st = run a st ++ run b st := rfl

theorem run_quest (a : Regex) (st : MState) :
    run (Regex.quest a) st = run a st ++ [st] := rfl

theorem run_plus (a : Regex) (st : MState) :
    run (Regex.plus a) st = plusLoop (run a) (st.rest.length + 1) st := rfl

theorem run_cap (i : Nat) (a : Regex) (st : MState) :
    run (Regex.cap i a) st =
      (run a st).map (fun st1 =>
        ⟨st1.pos, st1.rest, st1.caps.set i (st.rest.take (st1.pos - st.pos))⟩) := rfl

theorem run_bot (st : MState) :
    run Regex.bot st = if st.pos = 0 then [st] else [] := rfl

theorem run_eot (st : MState) :
    run Regex.eot st = if st.rest = [] then [st] else [] := rfl

theorem validPath_eq :
    validPath = Regex.cat Regex.bot (Regex.cat (Regex.str baseStorePattern.data)
      (Regex.cat (Regex.cap 1 placeIDRegex) tailRegex)) := rfl

theorem mem_run_placeID (p : Nat) (r : List Char) (cp : List (List Char)) (st1 : MState) :
    st1 ∈ run (Regex.cap 1 placeIDRegex) ⟨p, r, cp⟩ ↔
      ∃ a b, r = a ++ b ∧ a ≠ [] ∧ (∀ c ∈ a, isPlaceIDChar c = true) ∧
        st1 = ⟨p + a.length, b, cp.set 1 a⟩ := by
  simp only [run_cap, placeIDRegex, run_plus, List.mem_map, mem_plusLoop_cls,
    inRanges_placeIDClass]
  constructor
  · rintro ⟨s, ⟨a, b, rfl, ha, -, hc, rfl⟩, rfl⟩
    exact ⟨a, b, rfl, ha, hc, by simp⟩
  · rintro ⟨a, b, rfl, ha, hc, rfl⟩
    exact ⟨⟨p + a.length, b, cp⟩, ⟨a, b, rfl, ha, by simp; omega, hc, rfl⟩, by simp⟩

theorem mem_run_mode (p : Nat) (r : List Char) (cp : List (List Char)) (st1 : MState) :
    st1 ∈ run modeRegex ⟨p, r, cp⟩ ↔
      ∃ m b, m ∈ modeNames ∧ r = m ++ b ∧ st1 = ⟨p + m.length, b, cp⟩ := by
  simp only [modeRegex, run_alt, List.mem_append, mem_run_str, modeNames, List.mem_cons,
    List.mem_singleton, List.not_mem_nil, or_false]
  constructor
  · rintro (⟨b, h1, h2⟩ | ⟨b, h1, h2⟩ | ⟨b, h1, h2⟩)
    · exact ⟨_, b, Or.inl rfl, h1, h2⟩
    · exact ⟨_, b, Or.inr (Or.inl rfl), h1, h2⟩
    · exact ⟨_, b, Or.inr (Or.inr rfl), h1, h2⟩
  · rintro ⟨m, b, (rfl | rfl | rfl), h1, h2⟩
    · exact Or.inl ⟨b, h1, h2⟩
    · exact Or.inr (Or.inl ⟨b, h1, h2⟩)
    · exact Or.inr (Or.inr ⟨b, h1, h2⟩)

theorem mem_run_lit (x : Char) (p : Nat) (r : List Char) (cp : List (List Char))
    (st1 : MState) :
    st1 ∈ run (Regex.lit x) ⟨p, r, cp⟩ ↔ ∃ b, r = x :: b ∧ st1 = ⟨p + 1, b, cp⟩ := by
  cases r with
  | nil => simp [run]
  | cons y ys =>
    by_cases hy : y = x
    · subst hy
      simp [run]
    · simp [run, hy]

theorem mem_run_modeSeg (p : Nat) (r : List Char) (cp : List (List Char)) (st1 : MState) :
    st1 ∈ run (Regex.cap 2 (Regex.cat (Regex.lit '/') (Regex.cap 3 modeRegex))) ⟨p, r, cp⟩ ↔
      ∃ m b, m ∈ modeNames ∧ r = '/' :: (m ++ b) ∧
        st1 = ⟨p + 1 + m.length, b, (cp.set 3 m).set 2 ('/' :: m)⟩ := by
  simp only [run_cap, run_cat, List.mem_map, List.mem_flatMap, mem_run_lit]
  constructor
  · rintro ⟨s2, ⟨s3, ⟨b3, rfl, rfl⟩, s4, h4, rfl⟩, rfl⟩
    obtain ⟨m, b, hm, rfl, rfl⟩ := (mem_run_mode _ _ _ _).mp h4
    refine ⟨m, b, hm, rfl, ?_⟩
    have h1 : p + 1 + m.length - (p + 1) = m.length := by omega
    have h2 : p + 1 + m.length - p = m.length + 1 := by omega
    simp [h1, h2]
  · rintro ⟨m, b, hm, rfl, rfl⟩
    refine ⟨⟨p + 1 + m.length, b, cp.set 3 m⟩,
      ⟨⟨p + 1, m ++ b, cp⟩, ⟨m ++ b, rfl, rfl⟩, ⟨p + 1 + m.length, b, cp⟩,
        (mem_run_mode _ _ _ _).mpr ⟨m, b, hm, rfl, rfl⟩, ?_⟩, ?_⟩
    · have h1 : p + 1 + m.length - (p + 1) = m.length := by omega
      simp [h1]
    · have h2 : p + 1 + m.length - p = m.length + 1 := by omega
      simp [h2]

theorem mem_run_tail (p : Nat) (r : List Char) (cp : List (List Char)) (st1 : MState) :
    st1 ∈ run tailRegex ⟨p, r, cp⟩ ↔
      (r = [] ∧ st1 = ⟨p, [], cp⟩) ∨
      (∃ m, m ∈ modeNames ∧ r = '/' :: m ∧
        st1 = ⟨p + 1 + m.length, [], (cp.set 3 m).set 2 ('/' :: m)⟩) := by
  simp only [tailRegex, run_cat, run_quest, List.mem_flatMap, List.mem_append,
    List.mem_singleton, mem_run_modeSeg, run_eot]
  constructor
  · rintro ⟨s, (⟨m, b, hm, rfl, rfl⟩ | rfl), h⟩
    · right
      by_cases hb : b = []
      · subst hb
        simp at h
        exact ⟨m, hm, by simp, h⟩
      · simp [hb] at h
    · left
      by_cases hr : r = []
      · subst hr
        simp at h
        exact ⟨rfl, h⟩
      · simp [hr] at h
  · rintro (⟨rfl, rfl⟩ | ⟨m, hm, rfl, rfl⟩)
    · exact ⟨_, Or.inr rfl, by simp⟩
    · exact ⟨_, Or.inl ⟨m, [], hm, by simp, rfl⟩, by simp⟩

theorem mem_run_validPath (p : Nat) (r : List Char) (cp : List (List Char)) (st1 : MState) :
    st1 ∈ run validPath ⟨p, r, cp⟩ ↔
      p = 0 ∧ ∃ a t, r = baseStorePattern.data ++ (a ++ t) ∧ a ≠ [] ∧
        (∀ c ∈ a, isPlaceIDChar c = true) ∧ isRouteTail t ∧
        st1 = ⟨r.length, [], routeCaps cp a t⟩ := by
  rw [validPath_eq]
  simp only [run_cat, List.mem_flatMap, run_bot]
  by_cases hp : p = 0
  · subst hp
    simp only [if_true, List.mem_singleton, exists_eq_left, mem_run_str, true_and]
    constructor
    · rintro ⟨s1, ⟨r1, hr, rfl⟩, s2, h2, h3⟩
      obtain ⟨a, t, rfl, ha, hc, rfl⟩ := (mem_run_placeID _ _ _ _).mp h2
      rcases (mem_run_tail _ _ _ _).mp h3 with ⟨rfl, rfl⟩ | ⟨m, hm, rfl, rfl⟩
      · exact ⟨a, [], hr, ha, hc, Or.inl rfl, by simp [hr, routeCaps, baseStorePattern]; omega⟩
      · refine ⟨a, '/' :: m, hr, ha, hc, Or.inr ⟨m, hm, rfl⟩, ?_⟩
        simp [hr, routeCaps, baseStorePattern]
        omega
    · rintro ⟨a, t, rfl, ha, hc, ht, rfl⟩
      refine ⟨⟨0 + baseStorePattern.data.length, a ++ t, cp⟩, ⟨a ++ t, rfl, rfl⟩,
        ⟨0 + baseStorePattern.data.length + a.length, t, cp.set 1 a⟩,
        (mem_run_placeID _ _ _ _).mpr ⟨a, t, rfl, ha, hc, rfl⟩, ?_⟩
      rw [mem_run_tail]
      rcases ht with rfl | ⟨m, hm, rfl⟩
      · left
        simp [routeCaps]
      · right
        refine ⟨m, hm, rfl, ?_⟩
        simp [routeCaps]
        omega
  · simp [hp]

theorem run_validPath_succ (p : Nat) (r : List Char) (cp : List (List Char)) :
    run validPath ⟨p + 1, r, cp⟩ = [] := by
  apply List.eq_nil_iff_forall_not_mem.mpr
  intro st1 h
  have := ((mem_run_validPath _ _ _ _).mp h).1
  omega

theorem matchAt_validPath_succ (r : List Char) (p : Nat) :
    matchAt validPath (p + 1) r = none := by
  unfold matchAt
  rw [run_validPath_succ]

theorem findFrom_validPath_succ (r : List Char) (p : Nat) :
    findFrom validPath (p + 1) r = none := by
  induction r generalizing p with
  | nil => exact matchAt_validPath_succ _ _
  | cons x xs ih =>
    show (match matchAt validPath (p + 1) (x :: xs) with
      | some m => some m
      | none => findFrom validPath (p + 1 + 1) xs) = none
    rw [matchAt_validPath_succ]
    exact ih (p + 1)

theorem findFrom_validPath_zero (r : List Char) :
    findFrom validPath 0 r = matchAt validPath 0 r := by
  cases r with
  | nil => rfl
  | cons x xs =>
    show (match matchAt validPath 0 (x :: xs) with
      | some m => some m
      | none => findFrom validPath (0 + 1) xs) = matchAt validPath 0 (x :: xs)
    cases matchAt validPath 0 (x :: xs) with
    | some m => rfl
    | none => exact findFrom_validPath_succ _ _

theorem isPlaceIDChar_slash : isPlaceIDChar '/' = false := by decide

theorem route_split_unique (a a1 t t1 : List Char)
    (ha : ∀ c ∈ a, isPlaceIDChar c = true) (ha1 : ∀ c ∈ a1, isPlaceIDChar c = true)
    (ht : isRouteTail t) (ht1 : isRouteTail t1) (h : a ++ t = a1 ++ t1) :
    a = a1 ∧ t = t1 := by
  induction a generalizing a1 with
  | nil =>
    cases a1 with
    | nil => exact ⟨rfl, by simpa using h⟩
    | cons y ys =>
      exfalso
      have hy := ha1 y (List.mem_cons_self _ _)
      rcases ht with rfl | ⟨m, -, rfl⟩
      · simp at h
      · simp only [List.nil_append, List.cons_append, List.cons.injEq] at h
        rw [← h.1, isPlaceIDChar_slash] at hy
        exact Bool.false_ne_true hy
  | cons x xs ih =>
    cases a1 with
    | nil =>
      exfalso
      have hx := ha x (List.mem_cons_self _ _)
      rcases ht1 with rfl | ⟨m, -, rfl⟩
      · simp at h
      · simp only [List.nil_append, List.cons_append, List.cons.injEq] at h
        rw [h.1, isPlaceIDChar_slash] at hx
        exact Bool.false_ne_true hx
    | cons y ys =>
      simp only [List.cons_append, List.cons.injEq] at h
      obtain ⟨h1, h2⟩ := ih ys (fun c hc => ha c (List.mem_cons_of_mem _ hc))
        (fun c hc => ha1 c (List.mem_cons_of_mem _ hc)) h.2
      exact ⟨by rw [h.1, h1], h2⟩

theorem routeCaps_map (r a t : List Char) (ht : isRouteTail t)
    (hr : r = baseStorePattern.data ++ (a ++ t)) :
    ((routeCaps (List.replicate (validPath.numSubexp + 1) []) a t).set 0
      (r.take (r.length - 0))).map String.mk = routeMatch a t := by
  have hn : validPath.numSubexp + 1 = 4 := rfl
  rw [hn, Nat.sub_zero, List.take_length, hr]
  rcases ht with rfl | ⟨m, -, rfl⟩
  · simp [routeCaps, routeMatch, List.replicate]
  · simp [routeCaps, routeMatch, List.replicate]

/-- Every match of the route pattern splits the path into the base pattern, a
non-empty identifier and an accepted tail, and returns the groups of that
split. -/
theorem FindStringSubmatch_validPath_some (s : String) (m : List String)
    (h : FindStringSubmatch validPath s = some m) :
    ∃ a t, s.data = baseStorePattern.data ++ (a ++ t) ∧ a ≠ [] ∧
      (∀ c ∈ a, isPlaceIDChar c = true) ∧ isRouteTail t ∧ m = routeMatch a t := by
  unfold FindStringSubmatch at h
  rw [findFrom_validPath_zero] at h
  unfold matchAt at h
  split at h
  · rename_i st sts hrun
    have hmem : st ∈ run validPath ⟨0, s.data, List.replicate (validPath.numSubexp + 1) []⟩ := by
      rw [hrun]; exact List.mem_cons_self _ _
    obtain ⟨-, a, t, hr, ha, hc, ht, rfl⟩ := (mem_run_validPath _ _ _ _).mp hmem
    refine ⟨a, t, hr, ha, hc, ht, ?_⟩
    simp only [Option.some.injEq] at h
    rw [← h]
    exact routeCaps_map _ a t ht hr
  · exact absurd h (by simp)

/-- Every path made of the base pattern, a non-empty identifier and an accepted
tail matches the route pattern, with the groups of that split. -/
theorem FindStringSubmatch_validPath_route (a t : List Char) (ha : a ≠ [])
    (hc : ∀ c ∈ a, isPlaceIDChar c = true) (ht : isRouteTail t) :
    FindStringSubmatch validPath (String.mk (baseStorePattern.data ++ (a ++ t))) =
      some (routeMatch a t) := by
  have hmem := (mem_run_validPath 0 (baseStorePattern.data ++ (a ++ t))
    (List.replicate (validPath.numSubexp + 1) []) _).mpr
      ⟨rfl, a, t, rfl, ha, hc, ht, rfl⟩
  cases hfs : FindStringSubmatch validPath (String.mk (baseStorePattern.data ++ (a ++ t))) with
  | none =>
    exfalso
    unfold FindStringSubmatch at hfs
    rw [findFrom_validPath_zero] at hfs
    unfold matchAt at hfs
    split at hfs
    · exact absurd hfs (by simp)
    · rename_i hrun
      simp only at hrun
      rw [hrun] at hmem
      exact absurd hmem (List.not_mem_nil _)
  | some m =>
    obtain ⟨a1, t1, hs, -, hc1, ht1, rfl⟩ := FindStringSubmatch_validPath_some _ _ hfs
    simp only [List.append_cancel_left_eq] at hs
    obtain ⟨rfl, rfl⟩ := route_split_unique a a1 t t1 hc hc1 ht ht1 hs
    rfl

/-! ## The matcher on the three route forms -/

theorem find_redirect (id : String) (h : validID id) :
    FindStringSubmatch validPath ("/store/" ++ id) = some ["/store/" ++ id, id, "", ""] := by
  have := FindStringSubmatch_validPath_route id.data [] h.1 h.2 (Or.inl rfl)
  simpa [routeMatch, baseStorePattern, String.ext_iff] using this

theorem find_mode (id mode : String) (h : validID id) (hm : mode.data ∈ modeNames) :
    FindStringSubmatch validPath ("/store/" ++ id ++ "/" ++ mode) =
      some ["/store/" ++ id ++ "/" ++ mode, id, "/" ++ mode, mode] := by
  have := FindStringSubmatch_validPath_route id.data ('/' :: mode.data) h.1 h.2
    (Or.inr ⟨mode.data, hm, rfl⟩)
  have e1 : String.mk (baseStorePattern.data ++ (id.data ++ '/' :: mode.data)) =
      "/store/" ++ id ++ "/" ++ mode := by
    apply String.ext
    simp [baseStorePattern]
  have e2 : String.mk ('/' :: mode.data) = "/" ++ mode := by
    apply String.ext
    simp
  rw [e1] at this
  rw [this, routeMatch, e1, e2]
  rfl

theorem find_pdf (id : String) (h : validID id) :
    FindStringSubmatch validPath ("/store/" ++ id ++ "/pdf") =
      some ["/store/" ++ id ++ "/pdf", id, "/pdf", "pdf"] := by
  have := find_mode id "pdf" h (by simp [modeNames])
  simpa [String.append_assoc] using this

theorem find_qr (id : String) (h : validID id) :
    FindStringSubmatch validPath ("/store/" ++ id ++ "/qr") =
      some ["/store/" ++ id ++ "/qr", id, "/qr", "qr"] := by
  have := find_mode id "qr" h (by simp [modeNames])
  simpa [String.append_assoc] using this

theorem find_png (id : String) (h : validID id) :
    FindStringSubmatch validPath ("/store/" ++ id ++ "/png") =
      some ["/store/" ++ id ++ "/png", id, "/png", "png"] := by
  have := find_mode id "png" h (by simp [modeNames])
  simpa [String.append_assoc] using this

/-! ## The response writer once the header is written -/

theorem Write_of_wrote (w : ResponseWriter) (b : String) (hw : w.wroteHeader = true) :
    w.Write b = { w with body := w.body ++ b } := by
  simp [ResponseWriter.Write, hw]

theorem WriteOut_of_wrote (w : ResponseWriter) (b : String) (hw : w.wroteHeader = true) :
    (w.WriteOut b).wroteHeader = true ∧ (w.WriteOut b).status = w.status ∧
      (w.WriteOut b).sent = w.sent ∧ (w.WriteOut b).body = w.body ++ b := by
  unfold ResponseWriter.WriteOut
  by_cases hb : b = ""
  · subst hb
    simp [hw]
  · simp [hb, Write_of_wrote, hw]

theorem Error_of_wrote (w : ResponseWriter) (err : String) (code : Nat)
    (hw : w.wroteHeader = true) :
    (Error w err code).wroteHeader = true ∧ (Error w err code).status = w.status ∧
      (Error w err code).sent = w.sent ∧ (Error w err code).body = w.body ++ (err ++ "\n") := by
  simp [Error, ResponseWriter.Write, ResponseWriter.WriteHeader, ResponseWriter.SetHeader,
    ResponseWriter.DelHeader, hw]

theorem finish_of_wrote (w : ResponseWriter) (hw : w.wroteHeader = true) : w.finish = w := by
  simp [ResponseWriter.finish, hw]

/-- The response `http.Error` produces on a writer with no header written. -/
theorem Error_fresh (err : String) (code : Nat) :
    Error ResponseWriter.fresh err code =
      ⟨[("X-Content-Type-Options", "nosniff"), ("Content-Type", "text/plain; charset=utf-8")],
        true, code,
        [("X-Content-Type-Options", "nosniff"), ("Content-Type", "text/plain; charset=utf-8")],
        err ++ "\n"⟩ := by
  simp [Error, ResponseWriter.Write, ResponseWriter.WriteHeader, ResponseWriter.SetHeader,
    ResponseWriter.DelHeader, ResponseWriter.fresh, Header.Set, Header.Del]

/-! ## `storeHandler` on the three route forms -/

theorem redirectWriter_eq (id : String) :
    redirectWriter id =
      ⟨[("Location", whatsLeftStoreURL id)], true, 302, [("Location", whatsLeftStoreURL id)], ""⟩ := by
  simp [redirectWriter, ResponseWriter.WriteHeader, ResponseWriter.SetHeader,
    ResponseWriter.fresh, Header.Set]

theorem storeHandler_redirect (W : World) (id : String) (h : validID id) :
    (storeHandler W Exec.fresh ("/store/" ++ id)).w =
      match W.parseFiles "assets/templates/store-whatsleft.html" with
      | some err => Error (redirectWriter id) err StatusInternalServerError
      | none =>
        match (W.execute "assets/templates/store-whatsleft.html"
            ⟨id, whatsLeftStoreURL id⟩).2 with
        | some err =>
          Error ((redirectWriter id).WriteOut (W.execute "assets/templates/store-whatsleft.html"
            ⟨id, whatsLeftStoreURL id⟩).1) err StatusInternalServerError
        | none => (redirectWriter id).WriteOut (W.execute "assets/templates/store-whatsleft.html"
            ⟨id, whatsLeftStoreURL id⟩).1 := by
  unfold storeHandler
  rw [find_redirect id h]
  have hp : pathJoin "assets/templates" "store-whatsleft.html" =
      "assets/templates/store-whatsleft.html" := by decide
  simp only [List.getD_cons_succ, List.getD_cons_zero, modeCase, if_true, hp]
  cases W.parseFiles "assets/templates/store-whatsleft.html" with
  | some err => rfl
  | none =>
    cases (W.execute "assets/templates/store-whatsleft.html" ⟨id, whatsLeftStoreURL id⟩).2 with
    | some err => rfl
    | none => rfl

/-! ## The file name of the PDF -/

theorem isPlaceIDChar_lt (c : Char) (h : isPlaceIDChar c = true) : c.toNat < 128 := by
  rw [← inRanges_placeIDClass] at h
  have e1 : 'A'.toNat = 65 := rfl
  have e2 : 'Z'.toNat = 90 := rfl
  have e3 : 'a'.toNat = 97 := rfl
  have e4 : 'z'.toNat = 122 := rfl
  have e5 : '0'.toNat = 48 := rfl
  have e6 : '9'.toNat = 57 := rfl
  have e7 : '-'.toNat = 45 := rfl
  have e8 : '_'.toNat = 95 := rfl
  simp only [inRanges, placeIDClass, List.any_cons, List.any_nil, Bool.or_false,
    Bool.or_eq_true, Bool.and_eq_true, decide_eq_true_eq, e1, e2, e3, e4, e5, e6, e7, e8] at h
  omega

theorem ascii_placeID_facts :
    ∀ n : Fin 128, isPlaceIDChar (Char.ofNat n.val) = true →
      (Char.ofNat n.val).toLower ≠ ' ' ∧ isPlaceIDChar (Char.ofNat n.val).toLower = true := by
  decide

theorem toLower_placeID (c : Char) (h : isPlaceIDChar c = true) :
    c.toLower ≠ ' ' ∧ isPlaceIDChar c.toLower = true := by
  have hc : c = Char.ofNat c.toNat := by simp
  have := ascii_placeID_facts ⟨c.toNat, isPlaceIDChar_lt c h⟩
  simp only [← hc] at this
  exact this h

theorem pdfFileName_eq (id : String) (h : validID id) :
    pdfFileName id = "whatsleft_-_" ++ ToLower id ++ ".pdf" := by
  have hmap : List.map (fun c => if c = ' ' then '_' else c) (id.data.map Char.toLower) =
      id.data.map Char.toLower := by
    have hid : List.map (fun c => if c = ' ' then '_' else c) (id.data.map Char.toLower) =
        List.map (fun c => c) (id.data.map Char.toLower) := by
      apply List.map_congr_left
      intro c hc
      obtain ⟨d, hd, rfl⟩ := List.mem_map.mp hc
      simp [(toLower_placeID d (h.2 d hd)).1]
    rw [hid, List.map_id']
  have hlit : List.map (fun c => if c = ' ' then '_' else c)
      ("WhatsLeft - ".data.map Char.toLower) = "whatsleft_-_".data := by decide
  apply String.ext
  simp only [pdfFileName, ReplaceAll, ToLower, String.data_append, List.map_append, hmap, hlit]

theorem modeCase_pdf : modeCase "pdf" = ModeCase.pdf := by decide

theorem modeCase_qr : modeCase "qr" = ModeCase.qr := by decide

theorem modeCase_png : modeCase "png" = ModeCase.default := by decide

theorem modeCase_empty : modeCase "" = ModeCase.redirect := by decide

theorem storeHandler_pdf (W : World) (id : String) (h : validID id) :
    storeHandler W Exec.fresh ("/store/" ++ id ++ "/pdf") =
      ⟨match (W.pdfOutput (pdfDocument (projectStoreURL id))).2 with
        | some err => Error ResponseWriter.fresh err StatusInternalServerError
        | none =>
          ((ResponseWriter.fresh.SetHeader "Content-Type" "application/pdf").SetHeader
            "Content-Disposition" ("inline; filename=\"" ++ pdfFileName id ++ "\"")).Write
              ("" ++ (W.pdfOutput (pdfDocument (projectStoreURL id))).1),
        [Event.log ("generiere PDF " ++ pdfFileName id ++ " mit QR-Code der auf " ++
            projectStoreURL id ++ " zeigt")],
        false⟩ := by
  unfold storeHandler
  rw [find_pdf id h]
  simp only [List.getD_cons_succ, List.getD_cons_zero, modeCase_pdf, generatePDF]
  cases (W.pdfOutput (pdfDocument (projectStoreURL id))).2 with
  | some err => rfl
  | none => rfl

theorem storeHandler_qr (W : World) (id : String) (h : validID id) :
    storeHandler W Exec.fresh ("/store/" ++ id ++ "/qr") =
      if (generateQRCode W
          (Exec.fresh.emit
            (Event.log ("generiere QR-Code der auf " ++ projectStoreURL id ++ " zeigt")))
          (projectStoreURL id)).1.panicked = true then
        (generateQRCode W
          (Exec.fresh.emit
            (Event.log ("generiere QR-Code der auf " ++ projectStoreURL id ++ " zeigt")))
          (projectStoreURL id)).1
      else
        match (generateQRCode W
          (Exec.fresh.emit
            (Event.log ("generiere QR-Code der auf " ++ projectStoreURL id ++ " zeigt")))
          (projectStoreURL id)).2 with
        | some err =>
          { (generateQRCode W
              (Exec.fresh.emit
                (Event.log ("generiere QR-Code der auf " ++ projectStoreURL id ++ " zeigt")))
              (projectStoreURL id)).1 with
            w := Error (generateQRCode W
              (Exec.fresh.emit
                (Event.log ("generiere QR-Code der auf " ++ projectStoreURL id ++ " zeigt")))
              (projectStoreURL id)).1.w err StatusInternalServerError }
        | none =>
          (generateQRCode W
            (Exec.fresh.emit
              (Event.log ("generiere QR-Code der auf " ++ projectStoreURL id ++ " zeigt")))
            (projectStoreURL id)).1 := by
  unfold storeHandler
  rw [find_qr id h]
  simp only [List.getD_cons_succ, List.getD_cons_zero, modeCase_qr]

theorem serveStore_redirect (W : World) (id : String) (h : validID id) :
    (serveStore W ("/store/" ++ id)).status = 302 ∧
    (serveStore W ("/store/" ++ id)).sent = [("Location", whatsLeftStoreURL id)] ∧
    (serveStore W ("/store/" ++ id)).body =
      match W.parseFiles "assets/templates/store-whatsleft.html" with
      | some err => err ++ "\n"
      | none =>
        (W.execute "assets/templates/store-whatsleft.html" ⟨id, whatsLeftStoreURL id⟩).1 ++
          match (W.execute "assets/templates/store-whatsleft.html"
              ⟨id, whatsLeftStoreURL id⟩).2 with
          | some err => err ++ "\n"
          | none => "" := by
  have hw : (redirectWriter id).wroteHeader = true := by rw [redirectWriter_eq]
  have hs : (redirectWriter id).status = 302 := by rw [redirectWriter_eq]
  have hh : (redirectWriter id).sent = [("Location", whatsLeftStoreURL id)] := by
    rw [redirectWriter_eq]
  have hb : (redirectWriter id).body = "" := by rw [redirectWriter_eq]
  unfold serveStore
  rw [storeHandler_redirect W id h]
  cases W.parseFiles "assets/templates/store-whatsleft.html" with
  | some err =>
    obtain ⟨h1, h2, h3, h4⟩ := Error_of_wrote (redirectWriter id) err StatusInternalServerError hw
    simp only [finish_of_wrote _ h1, h2, h3, h4, hs, hh, hb, String.empty_append, and_self]
  | none =>
    obtain ⟨o1, o2, o3, o4⟩ := WriteOut_of_wrote (redirectWriter id)
      (W.execute "assets/templates/store-whatsleft.html" ⟨id, whatsLeftStoreURL id⟩).1 hw
    cases (W.execute "assets/templates/store-whatsleft.html" ⟨id, whatsLeftStoreURL id⟩).2 with
    | some err =>
      obtain ⟨h1, h2, h3, h4⟩ := Error_of_wrote _ err StatusInternalServerError o1
      simp only [finish_of_wrote _ h1, h2, h3, h4, o2, o3, o4, hs, hh, hb,
        String.empty_append, and_self]
    | none =>
      simp only [finish_of_wrote _ o1, o2, o3, o4, hs, hh, hb, String.empty_append,
        String.append_empty, and_self]

/-! ## Paths outside the three route forms -/

theorem isRouteForm_iff (p : String) : isRouteForm p ↔ routesToMode p = true := by
  constructor
  · rintro ⟨id, hid, (rfl | rfl | rfl)⟩
    · simp [routesToMode, find_redirect id hid, modeCase_empty]
    · simp [routesToMode, find_pdf id hid, modeCase_pdf]
    · simp [routesToMode, find_qr id hid, modeCase_qr]
  · intro h
    unfold routesToMode at h
    cases hf : FindStringSubmatch validPath p with
    | none => simp [hf] at h
    | some m =>
      obtain ⟨a, t, hp, ha, hc, ht, rfl⟩ := FindStringSubmatch_validPath_some p m hf
      simp only [hf, routeMatch, List.getD_cons_succ, List.getD_cons_zero] at h
      refine ⟨String.mk a, ⟨ha, hc⟩, ?_⟩
      rcases ht with rfl | ⟨m1, hm, rfl⟩
      · left
        apply String.ext
        simp [hp, baseStorePattern]
      · simp only [modeNames, List.mem_cons, List.mem_singleton, List.not_mem_nil,
          or_false] at hm
        rcases hm with rfl | rfl | rfl
        · right; left
          apply String.ext
          simp [hp, baseStorePattern]
        · exfalso
          simp [modeCase_png] at h
        · right; right
          apply String.ext
          simp [hp, baseStorePattern]

theorem storeHandler_notFound (W : World) (p : String) (h : routesToMode p = false) :
    storeHandler W Exec.fresh p = ⟨NotFound ResponseWriter.fresh, [], false⟩ := by
  unfold routesToMode at h
  unfold storeHandler
  cases hf : FindStringSubmatch validPath p with
  | none => rfl
  | some m =>
    simp only [hf, ne_eq, decide_not, Bool.not_eq_false', decide_eq_true_eq] at h
    simp only [h]
    rfl

theorem NotFound_fresh :
    (NotFound ResponseWriter.fresh).finish =
      ⟨[("X-Content-Type-Options", "nosniff"), ("Content-Type", "text/plain; charset=utf-8")],
        true, 404,
        [("X-Content-Type-Options", "nosniff"), ("Content-Type", "text/plain; charset=utf-8")],
        "404 page not found\n"⟩ := by
  unfold NotFound
  rw [Error_fresh]
  rfl

theorem whatsLeftStoreURL_eq (id : String) :
    whatsLeftStoreURL id = "https://whatsleft.wirvsvirus.net/store/" ++ id := by
  have : "https://" ++ whatsLeftDomain ++ "/store/" = "https://whatsleft.wirvsvirus.net/store/" := by
    decide
  rw [whatsLeftStoreURL, this]

theorem projectStoreURL_eq (id : String) :
    projectStoreURL id = "https://engpass.appspot.com/store/" ++ id := by
  have : "https://" ++ projectDomain ++ baseStorePattern = "https://engpass.appspot.com/store/" := by
    decide
  rw [projectStoreURL, this]

theorem ascii_placeID_plain :
    ∀ n : Fin 128, isPlaceIDChar (Char.ofNat n.val) = true →
      isPlainURLChar (Char.ofNat n.val) = true := by
  decide

theorem isPlainURLChar_of_placeID (c : Char) (h : isPlaceIDChar c = true) :
    isPlainURLChar c = true := by
  have hc : c = Char.ofNat c.toNat := by simp
  have := ascii_placeID_plain ⟨c.toNat, isPlaceIDChar_lt c h⟩
  simp only [← hc] at this
  exact this h

/-! ## The qr case on a target URL -/

theorem qr_case_trace (W : World) (line url : String) :
    (if (generateQRCode W (Exec.fresh.emit (Event.log line)) url).1.panicked = true then
        (generateQRCode W (Exec.fresh.emit (Event.log line)) url).1
      else
        match (generateQRCode W (Exec.fresh.emit (Event.log line)) url).2 with
        | some err =>
          { (generateQRCode W (Exec.fresh.emit (Event.log line)) url).1 with
            w := Error (generateQRCode W (Exec.fresh.emit (Event.log line)) url).1.w err
              StatusInternalServerError }
        | none => (generateQRCode W (Exec.fresh.emit (Event.log line)) url).1).trace =
      [Event.log line, Event.qrEncode url ErrorCorrectionLevel.H Encoding.Auto] := by
  cases hc : W.qrEncode url ErrorCorrectionLevel.H Encoding.Auto with
  | none => simp [generateQRCode, qrErrorCorrectionLevel, hc, Exec.emit, Exec.fresh]
  | some code =>
    cases hs : W.scale code 1024 1024 with
    | none => simp [generateQRCode, qrErrorCorrectionLevel, hc, hs, Exec.emit, Exec.fresh]
    | some scaled =>
      cases hp : (W.pngEncode scaled).2 with
      | none => simp [generateQRCode, qrErrorCorrectionLevel, hc, hs, hp, Exec.emit, Exec.fresh]
      | some err =>
        simp [generateQRCode, qrErrorCorrectionLevel, hc, hs, hp, Exec.emit, Exec.fresh]

theorem qr_case_panicked (W : World) (line url : String) :
    (if (generateQRCode W (Exec.fresh.emit (Event.log line)) url).1.panicked = true then
        (generateQRCode W (Exec.fresh.emit (Event.log line)) url).1
      else
        match (generateQRCode W (Exec.fresh.emit (Event.log line)) url).2 with
        | some err =>
          { (generateQRCode W (Exec.fresh.emit (Event.log line)) url).1 with
            w := Error (generateQRCode W (Exec.fresh.emit (Event.log line)) url).1.w err
              StatusInternalServerError }
        | none => (generateQRCode W (Exec.fresh.emit (Event.log line)) url).1).panicked =
      (generateQRCode W Exec.fresh url).1.panicked := by
  cases hc : W.qrEncode url ErrorCorrectionLevel.H Encoding.Auto with
  | none => simp [generateQRCode, qrErrorCorrectionLevel, hc, Exec.emit, Exec.fresh]
  | some code =>
    cases hs : W.scale code 1024 1024 with
    | none => simp [generateQRCode, qrErrorCorrectionLevel, hc, hs, Exec.emit, Exec.fresh]
    | some scaled =>
      cases hp : (W.pngEncode scaled).2 with
      | none => simp [generateQRCode, qrErrorCorrectionLevel, hc, hs, hp, Exec.emit, Exec.fresh]
      | some err =>
        simp [generateQRCode, qrErrorCorrectionLevel, hc, hs, hp, Exec.emit, Exec.fresh]

theorem qr_case_writer (W : World) (line url : String) :
    (if (generateQRCode W (Exec.fresh.emit (Event.log line)) url).1.panicked = true then
        (generateQRCode W (Exec.fresh.emit (Event.log line)) url).1
      else
        match (generateQRCode W (Exec.fresh.emit (Event.log line)) url).2 with
        | some err =>
          { (generateQRCode W (Exec.fresh.emit (Event.log line)) url).1 with
            w := Error (generateQRCode W (Exec.fresh.emit (Event.log line)) url).1.w err
              StatusInternalServerError }
        | none => (generateQRCode W (Exec.fresh.emit (Event.log line)) url).1).w =
      qrWriter W url := by
  unfold qrWriter
  cases hc : W.qrEncode url ErrorCorrectionLevel.H Encoding.Auto with
  | none => simp [generateQRCode, qrErrorCorrectionLevel, hc, Exec.emit, Exec.fresh]
  | some code =>
    cases hs : W.scale code 1024 1024 with
    | none => simp [generateQRCode, qrErrorCorrectionLevel, hc, hs, Exec.emit, Exec.fresh]
    | some scaled =>
      cases hp : (W.pngEncode scaled).2 with
      | none => simp [generateQRCode, qrErrorCorrectionLevel, hc, hs, hp, Exec.emit, Exec.fresh]
      | some err =>
        simp [generateQRCode, qrErrorCorrectionLevel, hc, hs, hp, Exec.emit, Exec.fresh]

theorem WriteOut_fresh_body (b : String) : (ResponseWriter.fresh.WriteOut b).body = b := by
  unfold ResponseWriter.WriteOut
  by_cases hb : b = ""
  · subst hb
    rfl
  · simp [hb, ResponseWriter.Write, ResponseWriter.WriteHeader, ResponseWriter.fresh]

theorem qrWriter_echo_body (url : String) : (qrWriter echoWorld url).body = url := by
  simp [qrWriter, generateQRCode, echoWorld, Exec.emit, Exec.fresh, WriteOut_fresh_body]

theorem pdfWriter_echo_body (id url : String) : (pdfWriter echoWorld id url).body = url := by
  simp [pdfWriter, generatePDF, echoWorld, barcodeContents, pdfDocument, List.filterMap,
    String.join, ResponseWriter.Write, ResponseWriter.WriteHeader, ResponseWriter.SetHeader,
    ResponseWriter.fresh]

/-! ## The claims -/

/-- C1: for every valid identifier, on the path `/store/` + id the response of
`storeHandler` has status 302 and the `Location` header
`https://whatsleft.wirvsvirus.net/store/` + id, which is `whatsLeftStoreURL id`,
whatever the template engine answers. -/
theorem store_redirect_location (W : World) (id : String) (h : validID id) :
    (serveStore W ("/store/" ++ id)).status = 302 ∧
    (serveStore W ("/store/" ++ id)).sent.lookup "Location" =
      some ("https://whatsleft.wirvsvirus.net/store/" ++ id) ∧
    whatsLeftStoreURL id = "https://whatsleft.wirvsvirus.net/store/" ++ id := by
  obtain ⟨h1, h2, -⟩ := serveStore_redirect W id h
  refine ⟨h1, ?_, whatsLeftStoreURL_eq id⟩
  rw [h2, whatsLeftStoreURL_eq]
  simp [List.lookup]

theorem store_redirect_location_witness :
    validID "cafe-berlin-1" ∧
    (serveStore failingWorld ("/store/" ++ "cafe-berlin-1")).status = 302 ∧
    (serveStore sampleWorld ("/store/" ++ "cafe-berlin-1")).sent.lookup "Location" =
      some "https://whatsleft.wirvsvirus.net/store/cafe-berlin-1" :=
  ⟨by decide, (store_redirect_location failingWorld "cafe-berlin-1" (by decide)).1,
    (store_redirect_location sampleWorld "cafe-berlin-1" (by decide)).2.1⟩

/-- C2: for every valid identifier and every answer of the collaborators, the
URL `storeHandler` hands to `generateQRCode` on `/store/` + id + `/qr` and to
`generatePDF` on `/store/` + id + `/pdf` is
`https://engpass.appspot.com/store/` + id, which is `projectStoreURL id`, and
no other: the one call of `qr.Encode` has that content, the response is the
one the renderer produces for that URL (a panic of `generateQRCode` included),
the document given to the PDF serialiser is the one built for that URL, whose
barcode has that content, and no other URL gives the handler's response in
every world. -/
theorem store_qr_pdf_target (W : World) (id : String) (h : validID id) :
    projectStoreURL id = "https://engpass.appspot.com/store/" ++ id ∧
    (storeHandler W Exec.fresh ("/store/" ++ id ++ "/qr")).trace =
      [Event.log ("generiere QR-Code der auf " ++ ("https://engpass.appspot.com/store/" ++ id) ++
          " zeigt"),
        Event.qrEncode ("https://engpass.appspot.com/store/" ++ id) ErrorCorrectionLevel.H
          Encoding.Auto] ∧
    (storeHandler W Exec.fresh ("/store/" ++ id ++ "/qr")).w =
      qrWriter W ("https://engpass.appspot.com/store/" ++ id) ∧
    (storeHandler W Exec.fresh ("/store/" ++ id ++ "/qr")).panicked =
      (generateQRCode W Exec.fresh ("https://engpass.appspot.com/store/" ++ id)).1.panicked ∧
    (W.qrEncode ("https://engpass.appspot.com/store/" ++ id) ErrorCorrectionLevel.H
        Encoding.Auto = none →
      (storeHandler W Exec.fresh ("/store/" ++ id ++ "/qr")).panicked = true ∧
      (storeHandler W Exec.fresh ("/store/" ++ id ++ "/qr")).w = ResponseWriter.fresh) ∧
    (∀ code scaled,
      W.qrEncode ("https://engpass.appspot.com/store/" ++ id) ErrorCorrectionLevel.H
          Encoding.Auto = some code →
        W.scale code 1024 1024 = some scaled →
          (storeHandler W Exec.fresh ("/store/" ++ id ++ "/qr")).panicked = false ∧
          (storeHandler W Exec.fresh ("/store/" ++ id ++ "/qr")).w =
            match (W.pngEncode scaled).2 with
            | some err =>
              Error (ResponseWriter.fresh.WriteOut (W.pngEncode scaled).1) err
                StatusInternalServerError
            | none => ResponseWriter.fresh.WriteOut (W.pngEncode scaled).1) ∧
    (storeHandler W Exec.fresh ("/store/" ++ id ++ "/pdf")).w =
      pdfWriter W id ("https://engpass.appspot.com/store/" ++ id) ∧
    generatePDF W "" ("https://engpass.appspot.com/store/" ++ id) =
      ("" ++ (W.pdfOutput (pdfDocument ("https://engpass.appspot.com/store/" ++ id))).1,
        (W.pdfOutput (pdfDocument ("https://engpass.appspot.com/store/" ++ id))).2) ∧
    barcodeContents (pdfDocument ("https://engpass.appspot.com/store/" ++ id)) =
      ["https://engpass.appspot.com/store/" ++ id] ∧
    (∀ url, (∀ V : World, (storeHandler V Exec.fresh ("/store/" ++ id ++ "/qr")).w =
        qrWriter V url) → url = "https://engpass.appspot.com/store/" ++ id) ∧
    (∀ url, (∀ V : World, (storeHandler V Exec.fresh ("/store/" ++ id ++ "/pdf")).w =
        pdfWriter V id url) → url = "https://engpass.appspot.com/store/" ++ id) := by
  have hqw : ∀ V : World, (storeHandler V Exec.fresh ("/store/" ++ id ++ "/qr")).w =
      qrWriter V ("https://engpass.appspot.com/store/" ++ id) := by
    intro V
    rw [storeHandler_qr V id h, projectStoreURL_eq]
    exact qr_case_writer V _ _
  have hpw : ∀ V : World, (storeHandler V Exec.fresh ("/store/" ++ id ++ "/pdf")).w =
      pdfWriter V id ("https://engpass.appspot.com/store/" ++ id) := by
    intro V
    rw [storeHandler_pdf V id h, projectStoreURL_eq]
    simp only [pdfWriter, generatePDF]
  refine ⟨projectStoreURL_eq id, ?_, hqw W, ?_, ?_, ?_, hpw W, rfl, ?_, ?_, ?_⟩
  · rw [storeHandler_qr W id h, projectStoreURL_eq]
    exact qr_case_trace W _ _
  · rw [storeHandler_qr W id h, projectStoreURL_eq]
    exact qr_case_panicked W _ _
  · intro hc
    constructor
    · rw [storeHandler_qr W id h, projectStoreURL_eq, qr_case_panicked]
      simp [generateQRCode, qrErrorCorrectionLevel, hc, Exec.emit, Exec.fresh]
    · rw [hqw W]
      simp [qrWriter, generateQRCode, qrErrorCorrectionLevel, hc, Exec.emit, Exec.fresh]
  · intro code scaled hc hs
    constructor
    · rw [storeHandler_qr W id h, projectStoreURL_eq, qr_case_panicked]
      simp [generateQRCode, qrErrorCorrectionLevel, hc, hs, Exec.emit, Exec.fresh]
    · rw [hqw W]
      cases hp : (W.pngEncode scaled).2 with
      | none =>
        simp [qrWriter, generateQRCode, qrErrorCorrectionLevel, hc, hs, hp, Exec.emit,
          Exec.fresh]
      | some err =>
        simp [qrWriter, generateQRCode, qrErrorCorrectionLevel, hc, hs, hp, Exec.emit,
          Exec.fresh]
  · simp [barcodeContents, pdfDocument, List.filterMap]
  · intro url hall
    have h1 := hall echoWorld
    rw [hqw echoWorld] at h1
    have h2 := congrArg ResponseWriter.body h1
    rw [qrWriter_echo_body, qrWriter_echo_body] at h2
    exact h2.symm
  · intro url hall
    have h1 := hall echoWorld
    rw [hpw echoWorld] at h1
    have h2 := congrArg ResponseWriter.body h1
    rw [pdfWriter_echo_body, pdfWriter_echo_body] at h2
    exact h2.symm

theorem store_qr_pdf_target_witness :
    validID "cafe-berlin-1" ∧
    projectStoreURL "cafe-berlin-1" = "https://engpass.appspot.com/store/cafe-berlin-1" ∧
    (storeHandler sampleWorld Exec.fresh ("/store/" ++ "cafe-berlin-1" ++ "/qr")).trace =
      [Event.log "generiere QR-Code der auf https://engpass.appspot.com/store/cafe-berlin-1 zeigt",
        Event.qrEncode "https://engpass.appspot.com/store/cafe-berlin-1" ErrorCorrectionLevel.H
          Encoding.Auto] ∧
    (storeHandler failingWorld Exec.fresh ("/store/" ++ "cafe-berlin-1" ++ "/qr")).panicked =
      true :=
  have hw := store_qr_pdf_target sampleWorld "cafe-berlin-1" (by decide)
  have hf := store_qr_pdf_target failingWorld "cafe-berlin-1" (by decide)
  ⟨by decide, hw.1, hw.2.1, hf.2.2.2.1⟩

/-- C3: for every valid identifier, when `generatePDF` returns no error the
response of `storeHandler` on `/store/` + id + `/pdf` has `Content-Type`
`application/pdf` and `Content-Disposition` `inline; filename="F"` with
F = `whatsleft_-_` + lowercase(id) + `.pdf`, F being the lower-cased title
`WhatsLeft - ` + id with every space replaced by `_`, followed by `.pdf`. -/
theorem store_pdf_headers (W : World) (id : String) (h : validID id)
    (hok : (generatePDF W "" (projectStoreURL id)).2 = none) :
    (serveStore W ("/store/" ++ id ++ "/pdf")).sent.lookup "Content-Type" =
      some "application/pdf" ∧
    (serveStore W ("/store/" ++ id ++ "/pdf")).sent.lookup "Content-Disposition" =
      some ("inline; filename=\"" ++ ("whatsleft_-_" ++ ToLower id ++ ".pdf") ++ "\"") ∧
    ReplaceAll (ToLower ("WhatsLeft - " ++ id)) ' ' '_' ++ ".pdf" =
      "whatsleft_-_" ++ ToLower id ++ ".pdf" ∧
    (serveStore W ("/store/" ++ id ++ "/pdf")).status = 200 ∧
    (serveStore W ("/store/" ++ id ++ "/pdf")).body = (generatePDF W "" (projectStoreURL id)).1 := by
  have hfn := pdfFileName_eq id h
  have hok2 : (W.pdfOutput (pdfDocument (projectStoreURL id))).2 = none := hok
  refine ⟨?_, ?_, hfn, ?_, ?_⟩
  all_goals
    unfold serveStore
    rw [storeHandler_pdf W id h, hok2, hfn]
    simp [ResponseWriter.finish, ResponseWriter.Write, ResponseWriter.WriteHeader,
      ResponseWriter.SetHeader, ResponseWriter.fresh, Header.Set, List.lookup, generatePDF]

theorem store_pdf_headers_witness :
    validID "cafe-berlin-1" ∧
    (generatePDF sampleWorld "" (projectStoreURL "cafe-berlin-1")).2 = none ∧
    (serveStore sampleWorld ("/store/" ++ "cafe-berlin-1" ++ "/pdf")).sent.lookup
      "Content-Disposition" = some "inline; filename=\"whatsleft_-_cafe-berlin-1.pdf\"" :=
  ⟨by decide, rfl, (store_pdf_headers sampleWorld "cafe-berlin-1" (by decide) rfl).2.1⟩

/-- C4: for every request path that is not of the form `/store/` + id,
`/store/` + id + `/pdf` or `/store/` + id + `/qr` with a valid identifier,
`storeHandler` does what `http.NotFound` does and nothing else: it responds
404 with the not-found body and sends no `Location` header, no
`Content-Disposition` header and no `Content-Type: application/pdf` (the
content type is the plain-text one of `http.Error`). -/
theorem store_other_paths_not_found (W : World) (p : String) (h : ¬ isRouteForm p) :
    serveStore W p = (NotFound ResponseWriter.fresh).finish ∧
    (storeHandler W Exec.fresh p).trace = [] ∧
    (serveStore W p).status = 404 ∧
    (serveStore W p).body = "404 page not found\n" ∧
    (serveStore W p).sent.lookup "Location" = none ∧
    (serveStore W p).sent.lookup "Content-Type" ≠ some "application/pdf" ∧
    (serveStore W p).sent.lookup "Content-Disposition" = none := by
  have hr : routesToMode p = false := by
    cases hb : routesToMode p with
    | false => rfl
    | true => exact absurd ((isRouteForm_iff p).mpr hb) h
  unfold serveStore
  rw [storeHandler_notFound W p hr, NotFound_fresh]
  simp [List.lookup]

theorem store_other_paths_not_found_witness :
    (¬ isRouteForm "/store/abc def" ∧ (serveStore sampleWorld "/store/abc def").status = 404) ∧
    (¬ isRouteForm "/store/" ∧ (serveStore sampleWorld "/store/").status = 404) ∧
    (¬ isRouteForm "/store/abc/" ∧ (serveStore sampleWorld "/store/abc/").status = 404) ∧
    (¬ isRouteForm "/store/abc/pdf/x" ∧
      (serveStore sampleWorld "/store/abc/pdf/x").status = 404) ∧
    (¬ isRouteForm "/store/abc/xyz" ∧ (serveStore sampleWorld "/store/abc/xyz").status = 404) ∧
    (¬ isRouteForm "/store/abc/png" ∧ (serveStore sampleWorld "/store/abc/png").status = 404) :=
  have n1 : ¬ isRouteForm "/store/abc def" :=
    fun hf => absurd ((isRouteForm_iff _).mp hf) (by decide)
  have n2 : ¬ isRouteForm "/store/" :=
    fun hf => absurd ((isRouteForm_iff _).mp hf) (by decide)
  have n3 : ¬ isRouteForm "/store/abc/" :=
    fun hf => absurd ((isRouteForm_iff _).mp hf) (by decide)
  have n4 : ¬ isRouteForm "/store/abc/pdf/x" :=
    fun hf => absurd ((isRouteForm_iff _).mp hf) (by decide)
  have n5 : ¬ isRouteForm "/store/abc/xyz" :=
    fun hf => absurd ((isRouteForm_iff _).mp hf) (by decide)
  have n6 : ¬ isRouteForm "/store/abc/png" :=
    fun hf => absurd ((isRouteForm_iff _).mp hf) (by decide)
  ⟨⟨n1, (store_other_paths_not_found sampleWorld _ n1).2.2.1⟩,
    ⟨n2, (store_other_paths_not_found sampleWorld _ n2).2.2.1⟩,
    ⟨n3, (store_other_paths_not_found sampleWorld _ n3).2.2.1⟩,
    ⟨n4, (store_other_paths_not_found sampleWorld _ n4).2.2.1⟩,
    ⟨n5, (store_other_paths_not_found sampleWorld _ n5).2.2.1⟩,
    ⟨n6, (store_other_paths_not_found sampleWorld _ n6).2.2.1⟩⟩

/-- C5: `indexHandler` responds with status 200 and the body `Hello world!`
exactly when the request path is `/`; on every other path it responds 404 with
the not-found body, so the greeting is not written. -/
theorem index_root_only (p : String) :
    ((serveIndex p).status = 200 ∧ (serveIndex p).body = "Hello world!" ↔ p = "/") ∧
    (p ≠ "/" → (serveIndex p).status = 404 ∧ (serveIndex p).body = "404 page not found\n") := by
  have hroot : serveIndex "/" = ⟨[], true, 200, [], "Hello world!"⟩ := by decide
  have hother : p ≠ "/" → serveIndex p = (NotFound ResponseWriter.fresh).finish := by
    intro hp
    simp [serveIndex, indexHandler, hp, Exec.emit, Exec.fresh]
  constructor
  · constructor
    · intro hs
      by_contra hp
      rw [hother hp, NotFound_fresh] at hs
      simp at hs
    · intro hp
      rw [hp, hroot]
      exact ⟨rfl, rfl⟩
  · intro hp
    rw [hother hp, NotFound_fresh]
    exact ⟨rfl, rfl⟩

theorem index_root_only_witness :
    ((serveIndex "/").status = 200 ∧ (serveIndex "/").body = "Hello world!") ∧
    ("/store" ≠ "/" ∧ (serveIndex "/store").status = 404) :=
  ⟨(index_root_only "/").1.mpr rfl, by decide, ((index_root_only "/store").2 (by decide)).1⟩

/-- C6 (the code departs from it): when the template cannot be loaded or
rendered while `storeHandler` serves `/store/` + id, the handler calls
`http.Error` with status 500 after `WriteHeader(302)`, so the response keeps
status 302 and its `Location` header; the error text and a newline follow the
template output, if any, in the body. -/
theorem store_template_failure_status (W : World) (id err : String) (h : validID id)
    (hfail : W.parseFiles "assets/templates/store-whatsleft.html" = some err ∨
      (W.parseFiles "assets/templates/store-whatsleft.html" = none ∧
        (W.execute "assets/templates/store-whatsleft.html" ⟨id, whatsLeftStoreURL id⟩).2 =
          some err)) :
    (serveStore W ("/store/" ++ id)).status = 302 ∧
    (serveStore W ("/store/" ++ id)).status ≠ StatusInternalServerError ∧
    (serveStore W ("/store/" ++ id)).body =
      (match W.parseFiles "assets/templates/store-whatsleft.html" with
        | some _ => ""
        | none =>
          (W.execute "assets/templates/store-whatsleft.html" ⟨id, whatsLeftStoreURL id⟩).1) ++
        (err ++ "\n") := by
  obtain ⟨h1, -, h3⟩ := serveStore_redirect W id h
  refine ⟨h1, by rw [h1]; decide, ?_⟩
  rw [h3]
  rcases hfail with hp | ⟨hp, he⟩
  · simp [hp]
  · simp [hp, he]

theorem store_template_failure_status_witness :
    validID "cafe-berlin-1" ∧
    (serveStore failingWorld ("/store/" ++ "cafe-berlin-1")).status = 302 ∧
    (serveStore failingWorld ("/store/" ++ "cafe-berlin-1")).body =
      "open assets/templates/store-whatsleft.html: no such file or directory\n" :=
  have hw := store_template_failure_status failingWorld "cafe-berlin-1"
    "open assets/templates/store-whatsleft.html: no such file or directory" (by decide)
    (Or.inl (by decide))
  ⟨by decide, hw.1, hw.2.2⟩

/-- C7: for every valid identifier, when `generatePDF` returns an error while
`storeHandler` serves `/store/` + id + `/pdf`, the response is exactly the one
`http.Error` produces for that error and status 500: status 500, the error
text as the (newline-terminated) body, the plain-text content type instead of
`application/pdf`, no `Content-Disposition`, and nothing of what `generatePDF`
wrote into its buffer. -/
theorem store_pdf_failure (W : World) (id err : String) (h : validID id)
    (herr : (generatePDF W "" (projectStoreURL id)).2 = some err) :
    serveStore W ("/store/" ++ id ++ "/pdf") =
      Error ResponseWriter.fresh err StatusInternalServerError ∧
    (serveStore W ("/store/" ++ id ++ "/pdf")).status = 500 ∧
    (serveStore W ("/store/" ++ id ++ "/pdf")).body = err ++ "\n" ∧
    (serveStore W ("/store/" ++ id ++ "/pdf")).sent.lookup "Content-Type" =
      some "text/plain; charset=utf-8" ∧
    (serveStore W ("/store/" ++ id ++ "/pdf")).sent.lookup "Content-Disposition" = none := by
  have herr2 : (W.pdfOutput (pdfDocument (projectStoreURL id))).2 = some err := herr
  have hs : serveStore W ("/store/" ++ id ++ "/pdf") =
      Error ResponseWriter.fresh err StatusInternalServerError := by
    unfold serveStore
    rw [storeHandler_pdf W id h, herr2]
    simp only [Error_fresh, ResponseWriter.finish, if_true]
  rw [hs, Error_fresh]
  simp [List.lookup, StatusInternalServerError]

theorem store_pdf_failure_witness :
    validID "cafe-berlin-1" ∧
    (generatePDF failingWorld "" (projectStoreURL "cafe-berlin-1")).1 = "%PDF-1.3 partial" ∧
    (serveStore failingWorld ("/store/" ++ "cafe-berlin-1" ++ "/pdf")).status = 500 ∧
    (serveStore failingWorld ("/store/" ++ "cafe-berlin-1" ++ "/pdf")).body =
      "open assets/images/teaser-whatsleft.png: no such file or directory\n" :=
  have hw := store_pdf_failure failingWorld "cafe-berlin-1"
    "open assets/images/teaser-whatsleft.png: no such file or directory" (by decide) rfl
  ⟨by decide, rfl, hw.2.1, hw.2.2.1⟩

/-- C8, as stated, fails: the path `/store/abc/png` matches the route pattern
with mode segment `png`, for which the switch has no case, so the default
not-found branch runs and the response is the 404 one. -/
theorem png_reaches_default :
    FindStringSubmatch validPath "/store/abc/png" =
      some ["/store/abc/png", "abc", "/png", "png"] ∧
    modeCase "png" = ModeCase.default ∧
    serveStore sampleWorld "/store/abc/png" = (NotFound ResponseWriter.fresh).finish ∧
    (serveStore sampleWorld "/store/abc/png").status = 404 := by
  decide

/-- C8, amended: for every request path that matches the route pattern, the
captured mode segment is empty, `pdf`, `png` or `qr`; the empty segment, `pdf`
and `qr` select the redirect, PDF and QR cases of the switch, and the default
not-found branch is reached exactly when the segment is `png`. -/
theorem matched_mode_cases (p : String) (m : List String)
    (h : FindStringSubmatch validPath p = some m) :
    (m.getD 3 "" = "" ∨ m.getD 3 "" = "pdf" ∨ m.getD 3 "" = "png" ∨ m.getD 3 "" = "qr") ∧
    (m.getD 3 "" = "" → modeCase (m.getD 3 "") = ModeCase.redirect) ∧
    (m.getD 3 "" = "pdf" → modeCase (m.getD 3 "") = ModeCase.pdf) ∧
    (m.getD 3 "" = "qr" → modeCase (m.getD 3 "") = ModeCase.qr) ∧
    (modeCase (m.getD 3 "") = ModeCase.default ↔ m.getD 3 "" = "png") := by
  obtain ⟨a, t, -, -, -, ht, rfl⟩ := FindStringSubmatch_validPath_some p m h
  simp only [routeMatch, List.getD_cons_succ, List.getD_cons_zero]
  rcases ht with rfl | ⟨m1, hm, rfl⟩
  · decide
  · simp only [modeNames, List.mem_cons, List.mem_singleton, List.not_mem_nil,
      or_false] at hm
    rcases hm with rfl | rfl | rfl <;> decide

theorem matched_mode_cases_witness :
    FindStringSubmatch validPath "/store/abc/qr" = some ["/store/abc/qr", "abc", "/qr", "qr"] ∧
    (modeCase "qr" = ModeCase.default ↔ "qr" = "png") :=
  ⟨by decide,
    (matched_mode_cases "/store/abc/qr" ["/store/abc/qr", "abc", "/qr", "qr"]
      (by decide)).2.2.2.2⟩

/-- C9: for every target URL the document built by `generatePDF` contains one
barcode, a 120 mm by 120 mm square whose left offset is (210 - 120) / 2 = 45 mm,
so that the gaps to the left and right edge of the 210 mm wide A4 page are
equal (45 + 120 + 45 = 210); the square spans x from 45 to 165 and y from
279 - 20 - 120 = 139 to 259 and lies inside the 210 mm by 297 mm page. -/
theorem qr_square_centred (targetURL : String) :
    barcodeRects (pdfDocument targetURL) = [((210 - 120) / 2, 279 - 20 - 120, 120, 120)] ∧
    ∀ r ∈ barcodeRects (pdfDocument targetURL),
      r.2.2.1 = 120 ∧ r.2.2.2 = 120 ∧ r.1 = 45 ∧
      r.1 = pageSizeA4.1 - (r.1 + r.2.2.1) ∧ r.1 + r.2.2.1 + r.1 = 210 ∧
      r.1 + r.2.2.1 = 165 ∧ r.2.1 = 139 ∧ r.2.1 + r.2.2.2 = 259 ∧
      0 ≤ r.1 ∧ r.1 + r.2.2.1 ≤ pageSizeA4.1 ∧ 0 ≤ r.2.1 ∧ r.2.1 + r.2.2.2 ≤ pageSizeA4.2 := by
  have hb : barcodeRects (pdfDocument targetURL) =
      [((210 - 120) / 2, 279 - 20 - 120, 120, 120)] := by
    simp [barcodeRects, pdfDocument, List.filterMap]
  refine ⟨hb, ?_⟩
  intro r hr
  rw [hb, List.mem_singleton] at hr
  subst hr
  simp only [pageSizeA4]
  norm_num

/-- C10: for every valid identifier, `whatsLeftStoreURL id` and
`projectStoreURL id` are the fixed `https://host/store/` text followed by the
identifier, and each of their characters is an ASCII letter, a digit or one of
`-`, `_`, `.`, `:`, `/`, printable, and none of space, double quote, single
quote, `?`, `#`, `%`. -/
theorem store_urls_plain (id : String) (h : validID id) :
    (∀ c ∈ (whatsLeftStoreURL id).data, isURLSafeChar c = true ∧ isPlainURLChar c = true) ∧
    (∀ c ∈ (projectStoreURL id).data, isURLSafeChar c = true ∧ isPlainURLChar c = true) ∧
    whatsLeftStoreURL id = "https://whatsleft.wirvsvirus.net/store/" ++ id ∧
    projectStoreURL id = "https://engpass.appspot.com/store/" ++ id ∧
    (∀ c, isPlainURLChar c = true →
      c ≠ ' ' ∧ c ≠ Char.ofNat 34 ∧ c ≠ Char.ofNat 39 ∧ c ≠ '?' ∧ c ≠ '#' ∧ c ≠ '%' ∧
        32 < c.toNat ∧ c.toNat < 127) := by
  have hplain : ∀ c, isPlainURLChar c = true → isURLSafeChar c = true := by
    intro c hc
    simp only [isPlainURLChar, Bool.and_eq_true] at hc
    exact hc.1.1.1.1.1.1.1.1
  have hw : ∀ c ∈ "https://whatsleft.wirvsvirus.net/store/".data, isPlainURLChar c = true := by
    decide
  have hp : ∀ c ∈ "https://engpass.appspot.com/store/".data, isPlainURLChar c = true := by
    decide
  refine ⟨?_, ?_, whatsLeftStoreURL_eq id, projectStoreURL_eq id, ?_⟩
  · intro c hc
    rw [whatsLeftStoreURL_eq, String.data_append, List.mem_append] at hc
    have : isPlainURLChar c = true := by
      rcases hc with hc | hc
      · exact hw c hc
      · exact isPlainURLChar_of_placeID c (h.2 c hc)
    exact ⟨hplain c this, this⟩
  · intro c hc
    rw [projectStoreURL_eq, String.data_append, List.mem_append] at hc
    have : isPlainURLChar c = true := by
      rcases hc with hc | hc
      · exact hp c hc
      · exact isPlainURLChar_of_placeID c (h.2 c hc)
    exact ⟨hplain c this, this⟩
  · intro c hc
    simp only [isPlainURLChar, Bool.and_eq_true, bne_iff_ne, ne_eq, decide_eq_true_eq] at hc
    obtain ⟨⟨⟨⟨⟨⟨⟨⟨-, h1⟩, h2⟩, h3⟩, h4⟩, h5⟩, h6⟩, h7⟩, h8⟩ := hc
    exact ⟨h1, h2, h3, h4, h5, h6, h7, h8⟩

theorem store_urls_plain_witness :
    validID "cafe-berlin-1" ∧
    whatsLeftStoreURL "cafe-berlin-1" = "https://whatsleft.wirvsvirus.net/store/cafe-berlin-1" ∧
    projectStoreURL "cafe-berlin-1" = "https://engpass.appspot.com/store/cafe-berlin-1" ∧
    ∀ c ∈ (projectStoreURL "cafe-berlin-1").data, isURLSafeChar c = true ∧
      isPlainURLChar c = true :=
  have hw := store_urls_plain "cafe-berlin-1" (by decide)
  ⟨by decide, hw.2.2.1, hw.2.2.2.1, hw.2.1⟩

end Engpass
